import Mathlib

/-!
Verification development for the Deep Research Agent repository: a shallow
embedding of the frontend display/request logic found under
`src/frontend` (termination-reason badge, domain classification of source
URLs, run-request construction, transparency-gated result tabs) together
with a model of the orchestration core (memory merge, evaluator, plan
manager, token budget, stop conditions) described by the design documents.
-/

namespace DRRag

/-! ## Termination reasons (from the TerminationBadge component) -/

/-- The termination-reason enumeration.  The frontend type alias lives in
the (absent) shared types module; its eight inhabitants are pinned by the
keys of the total record `REASON_MAP` in the TerminationBadge component. -/
inductive TerminationReason where
  | confidence_threshold_reached
  | max_iterations_reached
  | evidence_strictness_unsatisfied
  | token_budget_exceeded
  | timeout_exceeded
  | manual_interrupt
  | error_abort
  | unknown
deriving DecidableEq

/-- Badge variants used by the TerminationBadge component. -/
inductive BadgeVariant where
  | success
  | warning
  | error
deriving DecidableEq

/-- Display metadata attached to each termination reason. -/
structure ReasonInfo where
  label : String
  icon : String
  variant : BadgeVariant
deriving DecidableEq

/-- Embedding of the frontend constant `REASON_MAP` (TerminationBadge). -/
def REASON_MAP : TerminationReason → ReasonInfo
  | .confidence_threshold_reached =>
      ⟨"Confidence Threshold Reached", "✅", .success⟩
  | .max_iterations_reached => ⟨"Max Iterations Reached", "⚠", .warning⟩
  | .evidence_strictness_unsatisfied =>
      ⟨"Evidence Strictness Unmet", "⚠", .warning⟩
  | .token_budget_exceeded => ⟨"Token Budget Exceeded", "🛑", .error⟩
  | .timeout_exceeded => ⟨"Timeout Exceeded", "🛑", .error⟩
  | .manual_interrupt => ⟨"Manual Interrupt", "⚠", .warning⟩
  | .error_abort => ⟨"Error Abort", "🛑", .error⟩
  | .unknown => ⟨"Unknown", "?", .warning⟩

/-- The fixed eight-element set of termination reasons. -/
def allTerminationReasons : List TerminationReason :=
  [.confidence_threshold_reached, .max_iterations_reached,
   .evidence_strictness_unsatisfied, .token_budget_exceeded,
   .timeout_exceeded, .manual_interrupt, .error_abort, .unknown]

/-! ## Core data model (spec §3) -/

/-- Domain type of a stored Source, per the data model. -/
inductive DomainType where
  | edu
  | gov
  | news
  | blog
  | other
deriving DecidableEq

/-- A retrieved source.  `age_days` stands for the publication date,
measured as days before the run. -/
structure Source where
  url : String
  title : String
  summary : String
  age_days : Nat
  domain_type : DomainType
  author_present : Bool
  opinion_score : ℚ
deriving DecidableEq

/-- A structured insight extracted by analysis. -/
structure Insight where
  subtopic : String
  statement : String
  confidence : ℚ
  supporting_sources : List String
deriving DecidableEq

/-- A quantitative statistic extracted by analysis. -/
structure Statistic where
  value : String
  context : String
  source_url : String
deriving DecidableEq

/-- A detected contradiction between two sources. -/
structure Contradiction where
  subtopic : String
  claim_a : String
  source_a : String
  claim_b : String
  source_b : String
  severity : ℚ
deriving DecidableEq

/-- A report section with its supporting citations. -/
structure ReportSection where
  heading : String
  content : String
  supporting_sources : List String

/-- Per-iteration audit record (the fields exercised here). -/
structure ResearchTraceEntry where
  iteration : Nat
  global_confidence : ℚ
  weak_subtopics : List String
  plan_updates : List String
  subtopics_added : List String
  subtopics_removed : List String

/-- The final report assembled at termination; it carries exactly one
termination reason in its single `termination_reason` field. -/
structure FinalReport where
  executive_summary : String
  structured_sections : List ReportSection
  risk_assessment : List String
  recommendations : List String
  references : List String
  confidence_score : ℚ
  research_trace : List ResearchTraceEntry
  report_mode : String
  termination_reason : TerminationReason

/-! ## Domain classification of reference URLs (SourcesTab) -/

/-- Boolean substring test used to model the JavaScript
`String.prototype.includes` (character-list based so that it evaluates
inside the kernel). -/
def containsSub (s pat : String) : Bool :=
  s.toList.tails.any (fun t => pat.toList.isPrefixOf t)

/-- Boolean suffix test modelling `String.prototype.endsWith`. -/
def endsWithB (s pat : String) : Bool :=
  pat.toList.isSuffixOf s.toList

/-- The remainder after the first occurrence of `pat`, or none when `pat`
does not occur. -/
def dropAfter (pat : List Char) : List Char → Option (List Char)
  | [] => none
  | c :: cs =>
    if pat.isPrefixOf (c :: cs) then some ((c :: cs).drop pat.length)
    else dropAfter pat cs

/-- The longest initial segment before any of the characters in `seps`. -/
def cutAtAny (s : List Char) (seps : List Char) : List Char :=
  s.takeWhile (fun c => !(seps.contains c))

/-- The segment after the last occurrence of `sep` (the whole list when
`sep` is absent). -/
def afterLast (sep : Char) (s : List Char) : List Char :=
  (s.reverse.takeWhile (fun c => !(c == sep))).reverse

/-- Lower-cased hostname of a URL, modelling `new URL(url).hostname`:
the authority after the scheme separator, with userinfo and port
stripped; none when the URL has no scheme separator (in which case the
JavaScript URL constructor throws). -/
def hostname (url : String) : Option String :=
  (dropAfter [':', '/', '/'] url.toList).map (fun rest =>
    String.mk (((cutAtAny (afterLast '@' (cutAtAny rest ['/', '?', '#']))
      [':'])).map Char.toLower))

/-- Embedding of `classifyDomain` from the SourcesTab component. -/
def classifyDomain (url : String) : String :=
  match hostname url with
  | none => "other"
  | some h =>
    if endsWithB h ".edu" then ".edu"
    else if endsWithB h ".gov" then ".gov"
    else if endsWithB h ".org" then ".org"
    else if containsSub h "news" || containsSub h "reuters" ||
            containsSub h "bbc" || containsSub h "cnn" ||
            containsSub h "nyt" then "news"
    else if containsSub h "blog" || containsSub h "medium" ||
            containsSub h "substack" then "blog"
    else if containsSub h "wikipedia" then "wiki"
    else if containsSub h "arxiv" || containsSub h "scholar" then "academic"
    else "other"

/-- The five-element label set asserted by the data-model invariant. -/
def specDomainLabels : List String := ["edu", "gov", "news", "blog", "other"]

/-- The eight labels `classifyDomain` can actually return. -/
def frontendDomainLabels : List String :=
  [".edu", ".gov", ".org", "news", "blog", "wiki", "academic", "other"]

/-! ## ResearchMemory (spec §4.1) -/

/-- Modelled from the spec: URL normalization used as the
deduplication key of the Source store (the memory component
`core/research_memory.py` is not part of the shared sources); the model
lower-cases the URL and strips trailing slashes. -/
def normalizeUrl (u : String) : String :=
  String.mk ((u.toList.map Char.toLower).reverse.dropWhile
    (fun c => c == '/')).reverse

/-- Two sources clash when their normalized URLs coincide. -/
def urlClash (a b : Source) : Bool :=
  normalizeUrl a.url == normalizeUrl b.url

/-- Modelled from the spec: store one incoming source — first-seen wins,
a later source with an already-stored normalized URL is silently
absorbed and its metadata discarded. -/
def addSource (l : List Source) (s : Source) : List Source :=
  if l.any (fun t => urlClash t s) then l else l ++ [s]

/-- Fold a batch of retrieved sources into the store. -/
def mergeSources (l : List Source) (ns : List Source) : List Source :=
  ns.foldl addSource l

/-- Modelled from the spec: the append-only, deduplicated evidence
memory, with its internal change log of audit notes. -/
structure ResearchMemory where
  sources : List Source
  insights : List Insight
  statistics : List Statistic
  contradictions : List Contradiction
  change_log : List String
deriving DecidableEq

/-- Modelled from the spec: `merge` deduplicates sources by normalized
URL and appends insights/statistics/contradictions unconditionally,
adding exactly one audit note to the change log. -/
def ResearchMemory.merge (m : ResearchMemory) (ns : List Source)
    (ni : List Insight) (nst : List Statistic) (nc : List Contradiction) :
    ResearchMemory :=
  { sources := mergeSources m.sources ns
    insights := m.insights ++ ni
    statistics := m.statistics ++ nst
    contradictions := m.contradictions ++ nc
    change_log := m.change_log ++
      ["merge: " ++ toString ns.length ++ " sources, " ++
       toString ni.length ++ " insights"] }

/-- One iteration's worth of new evidence handed to `merge`. -/
structure MergeBatch where
  new_sources : List Source
  new_insights : List Insight
  new_statistics : List Statistic
  new_contradictions : List Contradiction
deriving DecidableEq

/-- Apply a sequence of merge calls. -/
def applyMerges (m : ResearchMemory) : List MergeBatch → ResearchMemory
  | [] => m
  | b :: bs =>
    applyMerges (m.merge b.new_sources b.new_insights b.new_statistics
      b.new_contradictions) bs

/-- The Source store holds no two entries with equal normalized URL. -/
def urlsNodup (l : List Source) : Prop :=
  l.Pairwise (fun a b => normalizeUrl a.url ≠ normalizeUrl b.url)

/-- The evidence of `m` (insights, statistics, contradictions) is all
present in `m'`. -/
def evidenceSupersetOf (m' m : ResearchMemory) : Prop :=
  (∀ i ∈ m.insights, i ∈ m'.insights)
  ∧ (∀ s ∈ m.statistics, s ∈ m'.statistics)
  ∧ (∀ c ∈ m.contradictions, c ∈ m'.contradictions)

/-- `m'` holds strictly more evidence than `m`. -/
def evidenceStrictSupersetOf (m' m : ResearchMemory) : Prop :=
  evidenceSupersetOf m' m ∧ ¬ evidenceSupersetOf m m'

/-! ## Frontend run request and transparency-gated tabs -/

/-- Depth modes of a run request. -/
inductive DepthMode where
  | quick_scan
  | standard
  | deep_investigation
deriving DecidableEq

/-- Contradiction-sensitivity modes. -/
inductive Sensitivity where
  | ignore_minor
  | flag_all
  | escalate_on_any
deriving DecidableEq

/-- Evidence-strictness levels. -/
inductive Strictness where
  | relaxed
  | moderate
  | strict
deriving DecidableEq

/-- Frontend transparency modes. -/
inductive TransparencyMode where
  | final_only
  | standard
  | full
deriving DecidableEq

/-- The frontend configuration state held by the HomePage component. -/
structure ResearchConfig where
  query : String
  depth_mode : DepthMode
  confidence_threshold : ℚ
  contradiction_sensitivity : Sensitivity
  evidence_strictness : Strictness
  max_iterations : Nat
  report_mode : String
  max_concurrent_tasks : Nat
  max_tokens_per_iteration : Nat
  max_tokens_per_run : Nat
  max_run_timeout : Nat
  transparency_mode : TransparencyMode
deriving DecidableEq

/-- The run request body sent to the `/research` endpoint. -/
structure ResearchRequest where
  query : String
  depth_mode : DepthMode
  confidence_threshold : ℚ
  contradiction_sensitivity : Sensitivity
  evidence_strictness : Strictness
  max_iterations : Nat
  report_mode : String
  max_concurrent_tasks : Nat
  max_tokens_per_iteration : Nat
  max_tokens_per_run : Nat
  max_run_timeout : Nat
deriving DecidableEq

/-- The request body constructed by `handleRun` in the HomePage
component (the object literal passed to `runResearch`). -/
def handleRunBody (c : ResearchConfig) : ResearchRequest :=
  { query := c.query
    depth_mode := c.depth_mode
    confidence_threshold := c.confidence_threshold
    contradiction_sensitivity := c.contradiction_sensitivity
    evidence_strictness := c.evidence_strictness
    max_iterations := c.max_iterations
    report_mode := c.report_mode
    max_concurrent_tasks := c.max_concurrent_tasks
    max_tokens_per_iteration := c.max_tokens_per_iteration
    max_tokens_per_run := c.max_tokens_per_run
    max_run_timeout := c.max_run_timeout }

/-- Result-tab identifiers of the ResultsPanel component. -/
inductive TabId where
  | report
  | timeline
  | subtopics
  | contradictions
  | sources
  | tokens
  | trace
deriving DecidableEq

/-- A tab definition: identifier, label, minimum transparency mode. -/
structure TabDef where
  id : TabId
  label : String
  minMode : TransparencyMode
deriving DecidableEq

/-- Embedding of the constant `TABS` in ResultsPanel. -/
def TABS : List TabDef :=
  [⟨.report, "Final Report", .final_only⟩,
   ⟨.timeline, "Timeline", .standard⟩,
   ⟨.subtopics, "Subtopics", .standard⟩,
   ⟨.contradictions, "Contradictions", .standard⟩,
   ⟨.sources, "Sources", .standard⟩,
   ⟨.tokens, "Token Usage", .full⟩,
   ⟨.trace, "Trace", .full⟩]

/-- Embedding of the constant `MODE_RANK` in ResultsPanel. -/
def MODE_RANK : TransparencyMode → Nat
  | .final_only => 0
  | .standard => 1
  | .full => 2

/-- The tabs ResultsPanel renders for a transparency mode. -/
def visibleTabs (m : TransparencyMode) : List TabDef :=
  TABS.filter (fun t => MODE_RANK t.minMode ≤ MODE_RANK m)

/-! ## Plan (spec §3) -/

/-- Lifecycle status of a subtopic. -/
inductive SubtopicStatus where
  | pending
  | active
  | complete
  | weak
deriving DecidableEq

/-- A subtopic of the research plan.  `covers_objective` is the mark,
used by the prune gates, of the subtopic(s) covering the stated research
objective. -/
structure Subtopic where
  name : String
  priority : Nat
  status : SubtopicStatus
  key_questions : List String
  metrics_required : List String
  covers_objective : Bool
deriving DecidableEq

/-- The research plan. -/
structure Plan where
  objective : String
  subtopics : List Subtopic
deriving DecidableEq

/-! ## Evaluator (spec §4.2)

Modelled from the spec: the evaluation component `agents/evaluator.py`
is not part of the shared sources; the scoring below follows §4.2's
component descriptions, weight table and penalty structure, with the
unstated numeric constants fixed as model parameters.  Every aggregation
over memory is expressed through `cntP`, `sumBy` and `anyB`, which
depend only on the multiset of elements. -/

/-- Count of elements satisfying a Boolean predicate. -/
def cntP (l : List α) (p : α → Bool) : Nat := l.countP p

/-- Sum of a rational-valued function over a list. -/
def sumBy (l : List α) (f : α → ℚ) : ℚ := (l.map f).sum

/-- Order-independent Boolean existence test. -/
def anyB (l : List α) (p : α → Bool) : Bool := decide (0 < l.countP p)

/-- Clamp a rational into [0,1]. -/
def clamp01 (x : ℚ) : ℚ := max 0 (min 1 x)

/-- Evaluator configuration: the two modes that affect scoring. -/
structure EvalConfig where
  contradiction_sensitivity : Sensitivity
  evidence_strictness : Strictness
deriving DecidableEq

/-- Domain-type credibility weight table (edu/gov > news > blog > other). -/
def domainWeight : DomainType → ℚ
  | .edu => 1
  | .gov => 1
  | .news => 7/10
  | .blog => 1/2
  | .other => 3/10

/-- Recency weight: full weight within a year, half beyond. -/
def recencyWeight (age : Nat) : ℚ := if age ≤ 365 then 1 else 1/2

/-- Credibility contribution of one source. -/
def sourceCred (s : Source) : ℚ :=
  domainWeight s.domain_type * recencyWeight s.age_days

/-- Does an insight belong to the named subtopic? -/
def insightFor (name : String) (i : Insight) : Bool := i.subtopic == name

/-- Does a source support the named subtopic (cited by one of its
insights)? -/
def supportsSubtopic (insights : List Insight) (name : String)
    (s : Source) : Bool :=
  anyB insights (fun i => insightFor name i &&
    i.supporting_sources.contains s.url)

/-- Is a required question/metric item covered by some insight of the
subtopic mentioning it? -/
def itemCovered (insights : List Insight) (name item : String) : Bool :=
  anyB insights (fun i => insightFor name i && containsSub i.statement item)

/-- Coverage: fraction of required metrics/key-questions with at least
one mapped insight (1 when nothing is required). -/
def coverageScore (m : ResearchMemory) (st : Subtopic) : ℚ :=
  if (st.key_questions ++ st.metrics_required).isEmpty then 1
  else (cntP (st.key_questions ++ st.metrics_required)
      (itemCovered m.insights st.name) : ℚ) /
    ((st.key_questions ++ st.metrics_required).length : ℚ)

/-- Number of sources supporting the subtopic. -/
def supCount (m : ResearchMemory) (st : Subtopic) : Nat :=
  cntP m.sources (supportsSubtopic m.insights st.name)

/-- Credibility: average of the weight table over supporting sources. -/
def credibilityScore (m : ResearchMemory) (st : Subtopic) : ℚ :=
  if supCount m st = 0 then 0
  else sumBy m.sources (fun s =>
    if supportsSubtopic m.insights st.name s then sourceCred s else 0) /
    (supCount m st : ℚ)

/-- Supporting sources of the subtopic sharing the given domain. -/
def domCount (m : ResearchMemory) (st : Subtopic) (d : DomainType) : Nat :=
  cntP m.sources (fun s =>
    supportsSubtopic m.insights st.name s && (s.domain_type == d))

/-- The five domain types. -/
def allDomainTypes : List DomainType := [.edu, .gov, .news, .blog, .other]

/-- More than 40% of the supporting sources share one domain. -/
def domShareExceeded (m : ResearchMemory) (st : Subtopic) : Bool :=
  anyB allDomainTypes (fun d =>
    decide (2 * supCount m st < 5 * domCount m st d))

/-- Opinion-heavy: more than half of the supporting sources have an
opinion score above the threshold 3/5. -/
def opinionExceeded (m : ResearchMemory) (st : Subtopic) : Bool :=
  decide (supCount m st < 2 * cntP m.sources (fun s =>
    supportsSubtopic m.insights st.name s &&
      decide ((3/5 : ℚ) < s.opinion_score)))

/-- Some insight of the subtopic has exactly one supporting source. -/
def singleSourceInsight (m : ResearchMemory) (st : Subtopic) : Bool :=
  anyB m.insights (fun i => insightFor st.name i &&
    decide (i.supporting_sources.length = 1))

/-- Diversity: penalized for a dominating domain, opinion-heavy
sourcing, and single-source insights. -/
def diversityScore (m : ResearchMemory) (st : Subtopic) : ℚ :=
  clamp01 (1 - (if domShareExceeded m st then 3/10 else 0)
    - (if opinionExceeded m st then 1/5 else 0)
    - (if singleSourceInsight m st then 1/5 else 0))

/-- Does an insight have quantitative backing: some stored statistic
drawn from one of its supporting sources? -/
def hasStatBacking (stats : List Statistic) (i : Insight) : Bool :=
  anyB stats (fun t => i.supporting_sources.contains t.source_url)

/-- Evidence strength: penalized for insights lacking multiple
citations or lacking any quantitative backing. -/
def evidenceStrengthScore (m : ResearchMemory) (st : Subtopic) : ℚ :=
  clamp01 (1 - (if anyB m.insights (fun i => insightFor st.name i &&
      decide (i.supporting_sources.length < 2)) then 3/10 else 0)
    - (if anyB m.insights (fun i => insightFor st.name i &&
      !(hasStatBacking m.statistics i)) then 3/10 else 0))

/-- Effective severity under a sensitivity mode (`ignore_minor`
discounts severities below 1/4). -/
def sevOf (mode : Sensitivity) (c : Contradiction) : ℚ :=
  match mode with
  | .ignore_minor => if c.severity < 1/4 then 0 else c.severity
  | _ => c.severity

/-- Consistency: penalized by unresolved contradiction severity;
`escalate_on_any` zeroes it on any severity above the floor 1/10. -/
def consistencyScore (mode : Sensitivity) (m : ResearchMemory)
    (st : Subtopic) : ℚ :=
  match mode with
  | .escalate_on_any =>
    if anyB m.contradictions (fun c => (c.subtopic == st.name) &&
        decide ((1/10 : ℚ) < c.severity)) then 0 else 1
  | .ignore_minor => clamp01 (1 - sumBy m.contradictions (fun c =>
      if c.subtopic == st.name then sevOf .ignore_minor c / 2 else 0))
  | .flag_all => clamp01 (1 - sumBy m.contradictions (fun c =>
      if c.subtopic == st.name then sevOf .flag_all c / 2 else 0))

/-- Per-subtopic component scores and confidence. -/
structure SubtopicScore where
  coverage : ℚ
  credibility : ℚ
  diversity : ℚ
  evidence_strength : ℚ
  consistency : ℚ
  confidence : ℚ
deriving DecidableEq

/-- Score one subtopic: the five deterministic components and their
weighted combination 0.25/0.25/0.15/0.20/0.15. -/
def evalSubtopic (c : EvalConfig) (m : ResearchMemory)
    (st : Subtopic) : SubtopicScore :=
  let cov := coverageScore m st
  let cred := credibilityScore m st
  let div := diversityScore m st
  let str := evidenceStrengthScore m st
  let cons := consistencyScore c.contradiction_sensitivity m st
  ⟨cov, cred, div, str, cons,
    cov * (1/4) + cred * (1/4) + div * (3/20) + str * (1/5) + cons * (3/20)⟩

/-- Minimum sources per insight demanded by a strictness level. -/
def strictnessMinSources : Strictness → Nat
  | .relaxed => 1
  | .moderate => 2
  | .strict => 3

/-- Minimum statistics per subtopic demanded by a strictness level. -/
def strictnessMinStats : Strictness → Nat
  | .relaxed => 0
  | .moderate => 1
  | .strict => 2

/-- Minimum distinct source domains demanded by a strictness level. -/
def strictnessMinDomains : Strictness → Nat
  | .relaxed => 1
  | .moderate => 2
  | .strict => 3

/-- Number of distinct domains among the subtopic's supporting sources. -/
def distinctDomains (m : ResearchMemory) (st : Subtopic) : Nat :=
  cntP allDomainTypes (fun d => decide (0 < domCount m st d))

/-- Statistics attached to the subtopic through its insights'
supporting sources. -/
def statsFor (m : ResearchMemory) (st : Subtopic) : Nat :=
  cntP m.statistics (fun t => anyB m.insights (fun i =>
    insightFor st.name i && i.supporting_sources.contains t.source_url))

/-- Specific strictness failures of one subtopic. -/
def strictnessFailuresFor (lvl : Strictness) (m : ResearchMemory)
    (st : Subtopic) : List String :=
  (if anyB m.insights (fun i => insightFor st.name i &&
      decide (i.supporting_sources.length < strictnessMinSources lvl))
   then [st.name ++ ": sources-per-insight below minimum"] else [])
  ++ (if statsFor m st < strictnessMinStats lvl
      then [st.name ++ ": statistics-per-subtopic below minimum"] else [])
  ++ (if distinctDomains m st < strictnessMinDomains lvl
      then [st.name ++ ": domain diversity below minimum"] else [])

/-- All strictness failures across the plan. -/
def strictnessFailures (lvl : Strictness) (m : ResearchMemory)
    (p : Plan) : List String :=
  (p.subtopics.map (strictnessFailuresFor lvl m)).flatten

/-- Name of the lowest component score (first-lowest wins). -/
def lowestComponentName (s : SubtopicScore) : String :=
  (([("credibility", s.credibility), ("diversity", s.diversity),
     ("evidence_strength", s.evidence_strength),
     ("consistency", s.consistency)] : List (String × ℚ)).foldl
    (fun best pr => if pr.2 < best.2 then pr else best)
    ("coverage", s.coverage)).1

/-- Machine-readable evaluation diagnostics. -/
structure Diagnostics where
  weak_subtopics : List String
  lowest_component : List (String × String)
  strictness_satisfied : Bool
  strictness_failures : List String
deriving DecidableEq

/-- The evaluator's output. -/
structure EvalResult where
  subtopic_scores : List (String × SubtopicScore)
  global_confidence : ℚ
  diagnostics : Diagnostics
deriving DecidableEq

/-- Scores of every subtopic of the plan. -/
def subtopicScores (m : ResearchMemory) (p : Plan) (c : EvalConfig) :
    List (String × SubtopicScore) :=
  p.subtopics.map (fun st => (st.name, evalSubtopic c m st))

/-- The per-subtopic confidence values, in plan order. -/
def subtopicConfs (m : ResearchMemory) (p : Plan) (c : EvalConfig) :
    List ℚ :=
  (subtopicScores m p c).map (fun pr => pr.2.confidence)

/-- Average subtopic confidence (0 for an empty plan). -/
def subtopicAverage (m : ResearchMemory) (p : Plan) (c : EvalConfig) : ℚ :=
  if (subtopicConfs m p c).isEmpty then 0
  else (subtopicConfs m p c).sum / ((subtopicConfs m p c).length : ℚ)

/-- Subtopics whose confidence falls below the weak threshold 3/5. -/
def weakSubtopicList (m : ResearchMemory) (p : Plan) (c : EvalConfig) :
    List (String × SubtopicScore) :=
  (subtopicScores m p c).filter (fun pr => decide (pr.2.confidence < 3/5))

/-- The Evaluator contract `score(memory, plan, config)`: per-subtopic
scores, global confidence (weak-subtopic penalty factor 9/10), and
diagnostics. -/
def Evaluator.score (m : ResearchMemory) (p : Plan) (c : EvalConfig) :
    EvalResult :=
  { subtopic_scores := subtopicScores m p c
    global_confidence :=
      if (weakSubtopicList m p c).isEmpty then subtopicAverage m p c
      else subtopicAverage m p c * (9/10)
    diagnostics :=
      { weak_subtopics := (weakSubtopicList m p c).map Prod.fst
        lowest_component := (weakSubtopicList m p c).map
          (fun pr => (pr.1, lowestComponentName pr.2))
        strictness_satisfied :=
          (strictnessFailures c.evidence_strictness m p).isEmpty
        strictness_failures := strictnessFailures c.evidence_strictness m p } }

/-- Two memories holding the same evidence up to the (arrival) order of
each store — the relation induced by merging the same parallel subtopic
results in different completion orders. -/
structure MemPerm (m₁ m₂ : ResearchMemory) : Prop where
  sources : m₁.sources.Perm m₂.sources
  insights : m₁.insights.Perm m₂.insights
  statistics : m₁.statistics.Perm m₂.statistics
  contradictions : m₁.contradictions.Perm m₂.contradictions

/-- All six fields of a subtopic score lie in [0,1]. -/
def scoreInRange (s : SubtopicScore) : Prop :=
  (0 ≤ s.coverage ∧ s.coverage ≤ 1)
  ∧ (0 ≤ s.credibility ∧ s.credibility ≤ 1)
  ∧ (0 ≤ s.diversity ∧ s.diversity ≤ 1)
  ∧ (0 ≤ s.evidence_strength ∧ s.evidence_strength ≤ 1)
  ∧ (0 ≤ s.consistency ∧ s.consistency ≤ 1)
  ∧ (0 ≤ s.confidence ∧ s.confidence ≤ 1)

/-! ## Orchestrator stop conditions (spec §4.4) -/

/-- Modelled from the spec: the fixed-priority stop-condition check of
the iteration state machine (`orchestrator.py` is not part of the
shared sources).  Conditions are evaluated in the order 1–6 of §4.4. -/
def stopReason (interrupted errorAbort overBudget overTime : Bool)
    (conf thr : ℚ) (iter maxIter : Nat)
    (strictSat strictFatal : Bool) : Option TerminationReason :=
  if interrupted then some .manual_interrupt
  else if errorAbort then some .error_abort
  else if overBudget then some .token_budget_exceeded
  else if overTime then some .timeout_exceeded
  else if thr ≤ conf then some .confidence_threshold_reached
  else if maxIter ≤ iter then
    (if !strictSat && strictFatal then some .evidence_strictness_unsatisfied
     else some .max_iterations_reached)
  else none

/-- Modelled from the spec: the iteration loop over a run's successive
global-confidence values (no interrupt/error/budget/time events,
strictness satisfied).  Returns the iterations executed and the stamped
reason. -/
def runConfidences (thr : ℚ) (maxIter : Nat) :
    List ℚ → Nat → Nat × Option TerminationReason
  | [], n => (n, none)
  | conf :: rest, n =>
    match stopReason false false false false conf thr (n + 1) maxIter
        true false with
    | some r => (n + 1, some r)
    | none => runConfidences thr maxIter rest (n + 1)

/-! ## TokenBudget (spec §4.5) -/

/-- Modelled from the spec: the two token counters with their ceilings
(`core/token_budget.py` is not part of the shared sources). -/
structure TokenBudget where
  used_iteration : Nat
  limit_iteration : Nat
  used_run : Nat
  limit_run : Nat
deriving DecidableEq

/-- Modelled from the spec: `reserve(estimated_cost)` — refuses any call
whose cost would push a counter over its ceiling, before dispatch. -/
def TokenBudget.reserve (b : TokenBudget) (cost : Nat) : Option TokenBudget :=
  if b.used_iteration + cost ≤ b.limit_iteration
      ∧ b.used_run + cost ≤ b.limit_run then
    some { b with used_iteration := b.used_iteration + cost,
                  used_run := b.used_run + cost }
  else none

/-- One external retrieval+analysis call: its estimated token cost and
the evidence it would contribute. -/
structure RetrievalTask where
  cost : Nat
  new_sources : List Source
  new_insights : List Insight
  new_statistics : List Statistic
  new_contradictions : List Contradiction
deriving DecidableEq

/-- Modelled from the spec: dispatch external calls in sequence,
checking `reserve` before each; a refused call is never dispatched and
the run stops with `token_budget_exceeded`, keeping the memory merged so
far. -/
def dispatchTasks (b : TokenBudget) (m : ResearchMemory) :
    List RetrievalTask → ResearchMemory × TokenBudget × Option TerminationReason
  | [] => (m, b, none)
  | t :: ts =>
    match b.reserve t.cost with
    | none => (m, b, some .token_budget_exceeded)
    | some b' => dispatchTasks b'
        (m.merge t.new_sources t.new_insights t.new_statistics
          t.new_contradictions) ts

/-! ## PlanManager (spec §4.3)

Modelled from the spec: the plan-governance component is not part of
the shared sources; the gates below follow §4.3, with the unstated
cooldown window and per-iteration spawn cap fixed as model constants. -/

/-- Cooldown window (iterations) before a removed name may reappear. -/
def cooldownWindow : Nat := 2

/-- Maximum spawns per iteration (the K of the spawn gates). -/
def maxSpawnsPerIteration : Nat := 2

/-- Lowest priority; spawned subtopics start here. -/
def lowestPriority : Nat := 3

/-- Near-duplicate test on subtopic names: case-insensitive equality. -/
def nearDuplicateName (a b : String) : Bool :=
  (a.toList.map Char.toLower) == (b.toList.map Char.toLower)

/-- PlanManager state: the plan, the names removed this run (with the
iteration of removal), and the current iteration. -/
structure PlanState where
  plan : Plan
  removed_this_run : List (String × Nat)
  iteration : Nat
deriving DecidableEq

/-- The name was removed this run (oscillation guard). -/
def removedThisRun (ps : PlanState) (name : String) : Bool :=
  ps.removed_this_run.any (fun r => nearDuplicateName r.1 name)

/-- The name is inside the cooldown window after a removal. -/
def inCooldown (ps : PlanState) (name : String) : Bool :=
  ps.removed_this_run.any (fun r => nearDuplicateName r.1 name &&
    decide (ps.iteration < r.2 + cooldownWindow))

/-- A spawn candidate produced by evaluator diagnostics. -/
structure SpawnCandidate where
  name : String
  flagged_missing : Bool
  key_questions : List String
  metrics_required : List String
deriving DecidableEq

/-- The spawn gates of §4.3 — all must pass. -/
def spawnGate (maxSub : Nat) (ps : PlanState) (spawned : Nat)
    (cand : SpawnCandidate) : Bool :=
  cand.flagged_missing
  && decide (ps.plan.subtopics.length + 1 ≤ maxSub)
  && !(ps.plan.subtopics.any (fun st => nearDuplicateName st.name cand.name))
  && !(removedThisRun ps cand.name)
  && !(inCooldown ps cand.name)
  && decide (spawned < maxSpawnsPerIteration)

/-- Spawn loop: process candidates in order, adding those that pass
every gate at lowest priority. -/
def spawnLoop (maxSub : Nat) :
    List SpawnCandidate → PlanState → List String → PlanState × List String
  | [], ps, added => (ps, added)
  | cand :: rest, ps, added =>
    if spawnGate maxSub ps added.length cand then
      spawnLoop maxSub rest
        { ps with plan := { ps.plan with subtopics := ps.plan.subtopics ++
            [⟨cand.name, lowestPriority, .pending, cand.key_questions,
              cand.metrics_required, false⟩] } }
        (added ++ [cand.name])
    else spawnLoop maxSub rest ps added

/-- `spawn_subtopics(diagnostics)`: returns the new state and the
`subtopics_added` delta. -/
def spawn_subtopics (maxSub : Nat) (ps : PlanState)
    (cands : List SpawnCandidate) : PlanState × List String :=
  spawnLoop maxSub cands ps []

/-- Remove every subtopic with the given name. -/
def removeName (l : List Subtopic) (name : String) : List Subtopic :=
  l.filter (fun st => !(st.name == name))

/-- The prune gates of §4.3: the named subtopic exists, is not marked as
covering the research objective, and removing it leaves at least one
subtopic. -/
def canPrune (ps : PlanState) (name : String) : Bool :=
  ps.plan.subtopics.any (fun st => (st.name == name) && !st.covers_objective)
  && decide (1 ≤ (removeName ps.plan.subtopics name).length)

/-- Prune loop: process weak names in order, removing those that pass
the gates and recording them with the current iteration. -/
def pruneLoop :
    List String → PlanState → List String → PlanState × List String
  | [], ps, removed => (ps, removed)
  | name :: rest, ps, removed =>
    if canPrune ps name then
      pruneLoop rest
        { plan := { objective := ps.plan.objective,
                    subtopics := removeName ps.plan.subtopics name },
          removed_this_run := ps.removed_this_run ++ [(name, ps.iteration)],
          iteration := ps.iteration }
        (removed ++ [name])
    else pruneLoop rest ps removed

/-- `prune_subtopics(diagnostics)`: returns the new state and the
`subtopics_removed` delta. -/
def prune_subtopics (ps : PlanState) (weakNames : List String) :
    PlanState × List String :=
  pruneLoop weakNames ps []

/-- Boost a subtopic's priority by one step (1 is highest). -/
def boostPriority (st : Subtopic) : Subtopic :=
  { st with priority := max 1 (st.priority - 1) }

/-- `apply_priority_adjustments(diagnostics)`: boost subtopics flagged
weak; never touches the objective. -/
def apply_priority_adjustments (ps : PlanState) (weakNames : List String) :
    PlanState :=
  { ps with plan := { objective := ps.plan.objective,
                      subtopics := ps.plan.subtopics.map (fun st =>
                        if weakNames.contains st.name then boostPriority st
                        else st) } }

/-! ## Theorems: termination reasons, domain labels, transparency -/

/-- Claim C3: every FinalReport carries exactly one termination reason —
the single `termination_reason` field — and its value always lies in the
fixed eight-element enumerated set; the set has no duplicates and
exactly eight members, and `REASON_MAP` is total on it (every reason has
badge metadata). -/
theorem finalReport_termination_reason_in_enum :
    (∀ r : FinalReport, r.termination_reason ∈ allTerminationReasons)
    ∧ allTerminationReasons.Nodup
    ∧ allTerminationReasons.length = 8
    ∧ (∀ t : TerminationReason, (REASON_MAP t).label ≠ "") := by
  refine ⟨fun r => ?_, by decide, by decide, fun t => ?_⟩
  · cases h : r.termination_reason <;> decide
  · cases t <;> decide

/-- Claim C9 (counterexample): `classifyDomain` applied to a plain
`.org` URL returns ".org", which is outside the five-element set
`{edu, gov, news, blog, other}` claimed for domain classification. -/
theorem classifyDomain_org_outside_five_set :
    classifyDomain "https://example.org" = ".org"
    ∧ classifyDomain "https://example.org" ∉ specDomainLabels := by
  exact ⟨by decide, by decide⟩

/-- Claim C9 (amended): `classifyDomain` always returns one of the eight
labels ".edu", ".gov", ".org", "news", "blog", "wiki", "academic",
"other" — never anything outside this set. -/
theorem classifyDomain_range :
    ∀ url, classifyDomain url ∈ frontendDomainLabels := by
  intro url
  unfold classifyDomain
  cases hostname url with
  | none => decide
  | some h =>
    repeat' split
    all_goals decide

/-- Claim C10: the run request body built by `handleRun` is independent
of `transparency_mode` (so identical for configurations differing only
there); `visibleTabs` is monotone in the transparency-mode rank, and
`final_only` shows exactly the Final Report tab. -/
theorem handleRun_transparency_independent :
    (∀ (c : ResearchConfig) (t : TransparencyMode),
      handleRunBody { c with transparency_mode := t } = handleRunBody c)
    ∧ visibleTabs .final_only = [⟨.report, "Final Report", .final_only⟩]
    ∧ (∀ m m', MODE_RANK m ≤ MODE_RANK m' →
        ∀ tab, tab ∈ visibleTabs m → tab ∈ visibleTabs m') := by
  refine ⟨fun c t => rfl, by decide, fun m m' hle tab htab => ?_⟩
  simp only [visibleTabs, List.mem_filter] at htab ⊢
  exact ⟨htab.1, decide_eq_true (Nat.le_trans (of_decide_eq_true htab.2) hle)⟩

/-- Witness for the monotonicity part of the transparency theorem: the
Final Report tab visible under `standard` remains visible under `full`. -/
theorem handleRun_transparency_independent_witness :
    ⟨.report, "Final Report", .final_only⟩ ∈ visibleTabs TransparencyMode.full :=
  handleRun_transparency_independent.2.2 TransparencyMode.standard
    TransparencyMode.full (by decide)
    ⟨.report, "Final Report", .final_only⟩ (by decide)

/-! ## Theorems: memory merge -/

theorem addSource_of_clash {l : List Source} {s : Source}
    (h : l.any (fun t => urlClash t s) = true) : addSource l s = l := by
  simp [addSource, h]

theorem addSource_append (l : List Source) (s : Source) :
    ∃ rest, addSource l s = l ++ rest := by
  unfold addSource
  split
  · exact ⟨[], by simp⟩
  · exact ⟨[s], rfl⟩

theorem addSource_nodup {l : List Source} (s : Source)
    (h : urlsNodup l) : urlsNodup (addSource l s) := by
  unfold addSource
  split
  · exact h
  · next hany =>
    rw [urlsNodup, List.pairwise_append]
    refine ⟨h, List.pairwise_singleton _ _, ?_⟩
    intro a ha b hb
    rw [List.mem_singleton] at hb
    subst hb
    intro heq
    exact hany (List.any_eq_true.mpr ⟨a, ha, by simp [urlClash, heq]⟩)

theorem mergeSources_append (l ns : List Source) :
    ∃ rest, mergeSources l ns = l ++ rest := by
  induction ns generalizing l with
  | nil => exact ⟨[], by simp [mergeSources]⟩
  | cons s ns ih =>
    obtain ⟨r1, h1⟩ := addSource_append l s
    obtain ⟨r2, h2⟩ := ih (addSource l s)
    refine ⟨r1 ++ r2, ?_⟩
    simp only [mergeSources, List.foldl_cons] at h2 ⊢
    rw [h2, h1, List.append_assoc]

theorem mergeSources_nodup {l : List Source} (h : urlsNodup l)
    (ns : List Source) : urlsNodup (mergeSources l ns) := by
  induction ns generalizing l with
  | nil => exact h
  | cons s ns ih =>
    simp only [mergeSources, List.foldl_cons]
    exact ih (addSource_nodup s h)

theorem applyMerges_sources_nodup {m : ResearchMemory}
    (h : urlsNodup m.sources) (bs : List MergeBatch) :
    urlsNodup (applyMerges m bs).sources := by
  induction bs generalizing m with
  | nil => exact h
  | cons b bs ih => exact ih (mergeSources_nodup h b.new_sources)

theorem applyMerges_sources_append (m : ResearchMemory)
    (bs : List MergeBatch) :
    ∃ rest, (applyMerges m bs).sources = m.sources ++ rest := by
  induction bs generalizing m with
  | nil => exact ⟨[], by simp [applyMerges]⟩
  | cons b bs ih =>
    obtain ⟨r1, h1⟩ := mergeSources_append m.sources b.new_sources
    obtain ⟨r2, h2⟩ := ih (m.merge b.new_sources b.new_insights
      b.new_statistics b.new_contradictions)
    refine ⟨r1 ++ r2, ?_⟩
    simp only [applyMerges] at h2 ⊢
    rw [h2]
    show mergeSources m.sources b.new_sources ++ r2 = _
    rw [h1, List.append_assoc]

/-- Claim C5: across any sequence of merge calls the Source store never
holds two entries with equal normalized URL, the entries stored first
are kept unchanged (the store only ever grows at the tail), and a source
whose normalized URL is already present leaves the store untouched (its
metadata is discarded). -/
theorem memory_source_dedup_first_seen_wins :
    (∀ (m : ResearchMemory) (bs : List MergeBatch), urlsNodup m.sources →
      urlsNodup (applyMerges m bs).sources
      ∧ ∃ rest, (applyMerges m bs).sources = m.sources ++ rest)
    ∧ (∀ (l : List Source) (s : Source),
        l.any (fun t => urlClash t s) = true → addSource l s = l) :=
  ⟨fun m bs h => ⟨applyMerges_sources_nodup h bs,
      applyMerges_sources_append m bs⟩,
   fun _ _ h => addSource_of_clash h⟩

/-- Witness for the dedup theorem: a duplicate of an already-stored URL
(differing only by case and a trailing slash) is absorbed, and the store
stays duplicate-free. -/
theorem memory_source_dedup_first_seen_wins_witness :
    urlsNodup (applyMerges
      ⟨[⟨"https://a.com", "first", "sum", 10, .edu, true, 0⟩], [], [], [], []⟩
      [⟨[⟨"https://A.com/", "dup", "other", 5, .blog, false, 1⟩], [], [], []⟩]).sources
    ∧ addSource [⟨"https://a.com", "first", "sum", 10, .edu, true, 0⟩]
        ⟨"https://A.com/", "dup", "other", 5, .blog, false, 1⟩
      = [⟨"https://a.com", "first", "sum", 10, .edu, true, 0⟩] :=
  ⟨(memory_source_dedup_first_seen_wins.1 _ _
      (by exact List.pairwise_singleton _ _)).1,
   memory_source_dedup_first_seen_wins.2 _ _ (by decide)⟩

/-- Claim C6 (counterexample): a merge call with empty evidence batches
leaves the evidence set unchanged, so the post-merge memory is not a
strict superset of the pre-merge memory — iteration N's evidence need
not strictly exceed iteration N-1's. -/
theorem merge_empty_batches_not_strict_superset :
    ¬ evidenceStrictSupersetOf
      ((⟨[], [⟨"s1", "claim", 1/2, ["u"]⟩], [], [], []⟩ : ResearchMemory).merge
        [] [] [] [])
      ⟨[], [⟨"s1", "claim", 1/2, ["u"]⟩], [], [], []⟩ := by
  intro h
  exact h.2 ⟨fun i hi => by simpa [ResearchMemory.merge] using hi,
    fun s hs => by simp [ResearchMemory.merge] at hs,
    fun c hc => by simp [ResearchMemory.merge] at hc⟩

/-- Claim C6 (amended): `merge` appends insights, statistics and
contradictions unconditionally — never removing or overwriting — so the
merged memory's evidence is always a superset of the old, and a strict
superset exactly when some merged batch contains an item not already
stored. -/
theorem merge_appends_evidence :
    ∀ (m : ResearchMemory) (ns : List Source) (ni : List Insight)
      (nst : List Statistic) (nc : List Contradiction),
      (m.merge ns ni nst nc).insights = m.insights ++ ni
      ∧ (m.merge ns ni nst nc).statistics = m.statistics ++ nst
      ∧ (m.merge ns ni nst nc).contradictions = m.contradictions ++ nc
      ∧ evidenceSupersetOf (m.merge ns ni nst nc) m
      ∧ (evidenceStrictSupersetOf (m.merge ns ni nst nc) m ↔
          (∃ i ∈ ni, i ∉ m.insights) ∨ (∃ s ∈ nst, s ∉ m.statistics)
          ∨ (∃ c ∈ nc, c ∉ m.contradictions)) := by
  intro m ns ni nst nc
  have hsup : evidenceSupersetOf (m.merge ns ni nst nc) m :=
    ⟨fun i hi => by simp [ResearchMemory.merge, hi],
     fun s hs => by simp [ResearchMemory.merge, hs],
     fun c hc => by simp [ResearchMemory.merge, hc]⟩
  refine ⟨rfl, rfl, rfl, hsup, ?_⟩
  constructor
  · rintro ⟨_, hns⟩
    by_contra hno
    push_neg at hno
    obtain ⟨h1, h2, h3⟩ := hno
    apply hns
    refine ⟨fun i hi => ?_, fun s hs => ?_, fun c hc => ?_⟩
    · rcases List.mem_append.mp (by simpa [ResearchMemory.merge] using hi)
        with h | h
      · exact h
      · exact h1 i h
    · rcases List.mem_append.mp (by simpa [ResearchMemory.merge] using hs)
        with h | h
      · exact h
      · exact h2 s h
    · rcases List.mem_append.mp (by simpa [ResearchMemory.merge] using hc)
        with h | h
      · exact h
      · exact h3 c h
  · intro hnew
    refine ⟨hsup, fun hrev => ?_⟩
    rcases hnew with ⟨i, hi, hni⟩ | ⟨s, hs, hns⟩ | ⟨c, hc, hnc⟩
    · exact hni (hrev.1 i (by simp [ResearchMemory.merge, hi]))
    · exact hns (hrev.2.1 s (by simp [ResearchMemory.merge, hs]))
    · exact hnc (hrev.2.2 c (by simp [ResearchMemory.merge, hc]))

/-- Witness for the append theorem: a merge of one new insight into an
empty memory yields an evidence superset. -/
theorem merge_appends_evidence_witness :
    evidenceSupersetOf
      ((⟨[], [], [], [], []⟩ : ResearchMemory).merge []
        [⟨"s1", "claim", 1/2, ["u"]⟩] [] [])
      ⟨[], [], [], [], []⟩ :=
  (merge_appends_evidence ⟨[], [], [], [], []⟩ []
    [⟨"s1", "claim", 1/2, ["u"]⟩] [] []).2.2.2.1

/-! ## Theorems: evaluator helper lemmas -/

theorem cntP_perm_ext {l₁ l₂ : List α} {p q : α → Bool}
    (h : l₁.Perm l₂) (hpq : ∀ a, p a = q a) : cntP l₁ p = cntP l₂ q := by
  rw [cntP, cntP, show p = q from funext hpq]
  exact h.countP_eq q

theorem sumBy_perm_ext {l₁ l₂ : List α} {f g : α → ℚ}
    (h : l₁.Perm l₂) (hfg : ∀ a, f a = g a) : sumBy l₁ f = sumBy l₂ g := by
  rw [sumBy, sumBy, show f = g from funext hfg]
  exact (h.map g).sum_eq

theorem anyB_perm_ext {l₁ l₂ : List α} {p q : α → Bool}
    (h : l₁.Perm l₂) (hpq : ∀ a, p a = q a) : anyB l₁ p = anyB l₂ q := by
  rw [anyB, anyB, show p = q from funext hpq, h.countP_eq q]

theorem clamp01_mem (x : ℚ) : 0 ≤ clamp01 x ∧ clamp01 x ≤ 1 :=
  ⟨le_max_left 0 _, max_le (by norm_num) (min_le_left 1 x)⟩

theorem sumBy_indicator_bounds (l : List α) (p : α → Bool) (f : α → ℚ)
    (h0 : ∀ a, 0 ≤ f a) (h1 : ∀ a, f a ≤ 1) :
    0 ≤ sumBy l (fun a => if p a then f a else 0)
    ∧ sumBy l (fun a => if p a then f a else 0) ≤ (cntP l p : ℚ) := by
  induction l with
  | nil => simp [sumBy, cntP]
  | cons a l ih =>
    simp only [sumBy, List.map_cons, List.sum_cons, cntP,
      List.countP_cons] at ih ⊢
    by_cases hp : p a = true
    · rw [if_pos hp, if_pos hp]
      push_cast
      constructor
      · have := h0 a
        linarith [ih.1]
      · have := h1 a
        linarith [ih.2]
    · rw [if_neg hp, if_neg hp]
      push_cast
      constructor
      · linarith [ih.1]
      · linarith [ih.2]

theorem list_sum_bounds (l : List ℚ) (h : ∀ x ∈ l, 0 ≤ x ∧ x ≤ 1) :
    0 ≤ l.sum ∧ l.sum ≤ (l.length : ℚ) := by
  induction l with
  | nil => simp
  | cons a l ih =>
    have ha := h a (List.mem_cons_self a l)
    have hl := ih (fun x hx => h x (List.mem_cons_of_mem a hx))
    simp only [List.sum_cons, List.length_cons]
    push_cast
    constructor
    · linarith [hl.1]
    · linarith [hl.2]

theorem sourceCred_mem (s : Source) : 0 ≤ sourceCred s ∧ sourceCred s ≤ 1 := by
  have hd : 0 ≤ domainWeight s.domain_type ∧ domainWeight s.domain_type ≤ 1 := by
    cases s.domain_type <;> simp [domainWeight] <;> norm_num
  have hr : 0 ≤ recencyWeight s.age_days ∧ recencyWeight s.age_days ≤ 1 := by
    unfold recencyWeight
    split <;> norm_num
  constructor
  · exact mul_nonneg hd.1 hr.1
  · calc domainWeight s.domain_type * recencyWeight s.age_days
        ≤ 1 * 1 := by
          apply mul_le_mul hd.2 hr.2 hr.1
          norm_num
    _ = 1 := by norm_num

theorem coverageScore_mem (m : ResearchMemory) (st : Subtopic) :
    0 ≤ coverageScore m st ∧ coverageScore m st ≤ 1 := by
  unfold coverageScore
  split
  · norm_num
  · next hne =>
    have hlen : 0 < (st.key_questions ++ st.metrics_required).length := by
      cases hq : st.key_questions ++ st.metrics_required with
      | nil => simp [hq] at hne
      | cons a l => simp
    have hcnt : cntP (st.key_questions ++ st.metrics_required)
        (itemCovered m.insights st.name)
        ≤ (st.key_questions ++ st.metrics_required).length :=
      List.countP_le_length _
    constructor
    · apply div_nonneg <;> positivity
    · rw [div_le_one (by exact_mod_cast hlen)]
      exact_mod_cast hcnt

theorem credibilityScore_mem (m : ResearchMemory) (st : Subtopic) :
    0 ≤ credibilityScore m st ∧ credibilityScore m st ≤ 1 := by
  unfold credibilityScore
  split
  · norm_num
  · next hne =>
    have hb := sumBy_indicator_bounds m.sources
      (supportsSubtopic m.insights st.name) sourceCred
      (fun a => (sourceCred_mem a).1) (fun a => (sourceCred_mem a).2)
    have hpos : 0 < (supCount m st : ℚ) := by
      have : 0 < supCount m st := Nat.pos_of_ne_zero hne
      exact_mod_cast this
    constructor
    · exact div_nonneg hb.1 (le_of_lt hpos)
    · rw [div_le_one hpos]
      exact hb.2

theorem diversityScore_mem (m : ResearchMemory) (st : Subtopic) :
    0 ≤ diversityScore m st ∧ diversityScore m st ≤ 1 :=
  clamp01_mem _

theorem evidenceStrengthScore_mem (m : ResearchMemory) (st : Subtopic) :
    0 ≤ evidenceStrengthScore m st ∧ evidenceStrengthScore m st ≤ 1 :=
  clamp01_mem _

theorem consistencyScore_mem (mode : Sensitivity) (m : ResearchMemory)
    (st : Subtopic) :
    0 ≤ consistencyScore mode m st ∧ consistencyScore mode m st ≤ 1 := by
  cases mode with
  | escalate_on_any =>
    simp only [consistencyScore]
    split <;> norm_num
  | ignore_minor => exact clamp01_mem _
  | flag_all => exact clamp01_mem _

theorem evalSubtopic_range (c : EvalConfig) (m : ResearchMemory)
    (st : Subtopic) : scoreInRange (evalSubtopic c m st) := by
  have h1 := coverageScore_mem m st
  have h2 := credibilityScore_mem m st
  have h3 := diversityScore_mem m st
  have h4 := evidenceStrengthScore_mem m st
  have h5 := consistencyScore_mem c.contradiction_sensitivity m st
  refine ⟨h1, h2, h3, h4, h5, ?_, ?_⟩
  · show (0:ℚ) ≤ _ * (1/4) + _ * (1/4) + _ * (3/20) + _ * (1/5) + _ * (3/20)
    have := h1.1; have := h2.1; have := h3.1; have := h4.1; have := h5.1
    nlinarith
  · show _ * (1/4) + _ * (1/4) + _ * (3/20) + _ * (1/5) + _ * (3/20) ≤ (1:ℚ)
    nlinarith [h1.1, h1.2, h2.1, h2.2, h3.1, h3.2, h4.1, h4.2, h5.1, h5.2]

/-! ## Theorems: evaluator order-independence -/

theorem cntP_perm {l₁ l₂ : List α} (h : l₁.Perm l₂) (p : α → Bool) :
    cntP l₁ p = cntP l₂ p := h.countP_eq p

theorem sumBy_perm {l₁ l₂ : List α} (h : l₁.Perm l₂) (f : α → ℚ) :
    sumBy l₁ f = sumBy l₂ f := (h.map f).sum_eq

theorem anyB_perm {l₁ l₂ : List α} (h : l₁.Perm l₂) (p : α → Bool) :
    anyB l₁ p = anyB l₂ p := by rw [anyB, anyB, h.countP_eq p]

theorem supportsSubtopic_ext {i₁ i₂ : List Insight} (hi : i₁.Perm i₂)
    (name : String) :
    supportsSubtopic i₁ name = supportsSubtopic i₂ name :=
  funext fun _ => anyB_perm hi _

theorem itemCovered_ext {i₁ i₂ : List Insight} (hi : i₁.Perm i₂)
    (name : String) :
    itemCovered i₁ name = itemCovered i₂ name :=
  funext fun _ => anyB_perm hi _

theorem hasStatBacking_ext {t₁ t₂ : List Statistic} (ht : t₁.Perm t₂) :
    hasStatBacking t₁ = hasStatBacking t₂ :=
  funext fun _ => anyB_perm ht _

theorem coverageScore_perm {m₁ m₂ : ResearchMemory} (h : MemPerm m₁ m₂)
    (st : Subtopic) : coverageScore m₁ st = coverageScore m₂ st := by
  unfold coverageScore
  simp only [itemCovered_ext h.insights]

theorem supCount_perm {m₁ m₂ : ResearchMemory} (h : MemPerm m₁ m₂)
    (st : Subtopic) : supCount m₁ st = supCount m₂ st := by
  unfold supCount
  simp only [supportsSubtopic_ext h.insights, cntP_perm h.sources]

theorem credibilityScore_perm {m₁ m₂ : ResearchMemory} (h : MemPerm m₁ m₂)
    (st : Subtopic) : credibilityScore m₁ st = credibilityScore m₂ st := by
  unfold credibilityScore
  simp only [supCount_perm h st, supportsSubtopic_ext h.insights,
    sumBy_perm h.sources]

theorem domCount_perm {m₁ m₂ : ResearchMemory} (h : MemPerm m₁ m₂)
    (st : Subtopic) (d : DomainType) :
    domCount m₁ st d = domCount m₂ st d := by
  unfold domCount
  simp only [supportsSubtopic_ext h.insights, cntP_perm h.sources]

theorem domShareExceeded_perm {m₁ m₂ : ResearchMemory} (h : MemPerm m₁ m₂)
    (st : Subtopic) : domShareExceeded m₁ st = domShareExceeded m₂ st := by
  unfold domShareExceeded
  simp only [supCount_perm h st, domCount_perm h st]

theorem opinionExceeded_perm {m₁ m₂ : ResearchMemory} (h : MemPerm m₁ m₂)
    (st : Subtopic) : opinionExceeded m₁ st = opinionExceeded m₂ st := by
  unfold opinionExceeded
  simp only [supCount_perm h st, supportsSubtopic_ext h.insights,
    cntP_perm h.sources]

theorem singleSourceInsight_perm {m₁ m₂ : ResearchMemory}
    (h : MemPerm m₁ m₂) (st : Subtopic) :
    singleSourceInsight m₁ st = singleSourceInsight m₂ st := by
  unfold singleSourceInsight
  simp only [anyB_perm h.insights]

theorem diversityScore_perm {m₁ m₂ : ResearchMemory} (h : MemPerm m₁ m₂)
    (st : Subtopic) : diversityScore m₁ st = diversityScore m₂ st := by
  unfold diversityScore
  simp only [domShareExceeded_perm h st, opinionExceeded_perm h st,
    singleSourceInsight_perm h st]

theorem evidenceStrengthScore_perm {m₁ m₂ : ResearchMemory}
    (h : MemPerm m₁ m₂) (st : Subtopic) :
    evidenceStrengthScore m₁ st = evidenceStrengthScore m₂ st := by
  unfold evidenceStrengthScore
  simp only [hasStatBacking_ext h.statistics, anyB_perm h.insights]

theorem consistencyScore_perm {m₁ m₂ : ResearchMemory} (h : MemPerm m₁ m₂)
    (mode : Sensitivity) (st : Subtopic) :
    consistencyScore mode m₁ st = consistencyScore mode m₂ st := by
  cases mode with
  | escalate_on_any =>
    simp only [consistencyScore]
    rw [anyB_perm h.contradictions]
  | ignore_minor =>
    simp only [consistencyScore]
    rw [sumBy_perm h.contradictions]
  | flag_all =>
    simp only [consistencyScore]
    rw [sumBy_perm h.contradictions]

theorem evalSubtopic_perm {m₁ m₂ : ResearchMemory} (h : MemPerm m₁ m₂)
    (c : EvalConfig) (st : Subtopic) :
    evalSubtopic c m₁ st = evalSubtopic c m₂ st := by
  unfold evalSubtopic
  simp only [coverageScore_perm h st, credibilityScore_perm h st,
    diversityScore_perm h st, evidenceStrengthScore_perm h st,
    consistencyScore_perm h c.contradiction_sensitivity st]

theorem statsFor_perm {m₁ m₂ : ResearchMemory} (h : MemPerm m₁ m₂)
    (st : Subtopic) : statsFor m₁ st = statsFor m₂ st := by
  unfold statsFor
  simp only [anyB_perm h.insights, cntP_perm h.statistics]

theorem distinctDomains_perm {m₁ m₂ : ResearchMemory} (h : MemPerm m₁ m₂)
    (st : Subtopic) : distinctDomains m₁ st = distinctDomains m₂ st := by
  unfold distinctDomains
  simp only [domCount_perm h st]

theorem strictnessFailuresFor_perm {m₁ m₂ : ResearchMemory}
    (h : MemPerm m₁ m₂) (lvl : Strictness) (st : Subtopic) :
    strictnessFailuresFor lvl m₁ st = strictnessFailuresFor lvl m₂ st := by
  unfold strictnessFailuresFor
  simp only [anyB_perm h.insights, statsFor_perm h st,
    distinctDomains_perm h st]

theorem strictnessFailures_perm {m₁ m₂ : ResearchMemory}
    (h : MemPerm m₁ m₂) (lvl : Strictness) (p : Plan) :
    strictnessFailures lvl m₁ p = strictnessFailures lvl m₂ p := by
  unfold strictnessFailures
  rw [show strictnessFailuresFor lvl m₁ = strictnessFailuresFor lvl m₂ from
    funext (strictnessFailuresFor_perm h lvl)]

theorem subtopicScores_perm {m₁ m₂ : ResearchMemory} (h : MemPerm m₁ m₂)
    (p : Plan) (c : EvalConfig) :
    subtopicScores m₁ p c = subtopicScores m₂ p c := by
  unfold subtopicScores
  simp only [evalSubtopic_perm h c]

theorem score_perm {m₁ m₂ : ResearchMemory} (h : MemPerm m₁ m₂)
    (p : Plan) (c : EvalConfig) :
    Evaluator.score m₁ p c = Evaluator.score m₂ p c := by
  unfold Evaluator.score subtopicAverage subtopicConfs weakSubtopicList
  simp only [subtopicScores_perm h p c, strictnessFailures_perm h]

/-- Claim C1: the Evaluator is pure and deterministic — two runs of
`score` on identical (memory, plan, config) inputs yield identical
results — and its result does not depend on the arrival order of the
merged evidence: memories whose stores are permutations of one another
(as produced by merging the same parallel subtopic results in any
completion order) receive identical scores, diagnostics included. -/
theorem evaluator_pure_order_independent :
    (∀ (m : ResearchMemory) (p : Plan) (c : EvalConfig),
      Evaluator.score m p c = Evaluator.score m p c)
    ∧ (∀ (m₁ m₂ : ResearchMemory) (p : Plan) (c : EvalConfig),
        MemPerm m₁ m₂ → Evaluator.score m₁ p c = Evaluator.score m₂ p c) :=
  ⟨fun _ _ _ => rfl, fun _ _ p c h => score_perm h p c⟩

/-- Witness for evaluator order-independence: two concrete memories
holding the same two sources and two insights in opposite arrival
orders (and different audit logs) receive identical scores. -/
theorem evaluator_pure_order_independent_witness :
    Evaluator.score
      ⟨[⟨"https://a.edu", "a", "x", 1, .edu, true, 0⟩,
        ⟨"https://b.com", "b", "y", 400, .blog, false, 1⟩],
       [⟨"s1", "alpha", 1/2, ["https://a.edu"]⟩,
        ⟨"s1", "beta", 3/4, ["https://b.com"]⟩],
       [⟨"42", "ctx", "https://a.edu"⟩], [], ["log-a"]⟩
      ⟨"obj", [⟨"s1", 1, .active, ["alpha"], [], true⟩]⟩
      ⟨.flag_all, .moderate⟩
    = Evaluator.score
      ⟨[⟨"https://b.com", "b", "y", 400, .blog, false, 1⟩,
        ⟨"https://a.edu", "a", "x", 1, .edu, true, 0⟩],
       [⟨"s1", "beta", 3/4, ["https://b.com"]⟩,
        ⟨"s1", "alpha", 1/2, ["https://a.edu"]⟩],
       [⟨"42", "ctx", "https://a.edu"⟩], [], ["log-b"]⟩
      ⟨"obj", [⟨"s1", 1, .active, ["alpha"], [], true⟩]⟩
      ⟨.flag_all, .moderate⟩ :=
  evaluator_pure_order_independent.2 _ _ _ _
    ⟨List.Perm.swap _ _ _, List.Perm.swap _ _ _,
     List.Perm.refl _, List.Perm.refl _⟩

theorem subtopicConfs_mem (m : ResearchMemory) (p : Plan) (c : EvalConfig) :
    ∀ x ∈ subtopicConfs m p c, 0 ≤ x ∧ x ≤ 1 := by
  intro x hx
  unfold subtopicConfs subtopicScores at hx
  rw [List.map_map, List.mem_map] at hx
  obtain ⟨st, _, hst⟩ := hx
  have hr := evalSubtopic_range c m st
  rw [← hst]
  exact hr.2.2.2.2.2

theorem subtopicAverage_mem (m : ResearchMemory) (p : Plan) (c : EvalConfig) :
    0 ≤ subtopicAverage m p c ∧ subtopicAverage m p c ≤ 1 := by
  unfold subtopicAverage
  split
  · norm_num
  · next hne =>
    have hb := list_sum_bounds (subtopicConfs m p c) (subtopicConfs_mem m p c)
    have hlen : 0 < ((subtopicConfs m p c).length : ℚ) := by
      have : (subtopicConfs m p c) ≠ [] := by
        intro hnil
        rw [hnil] at hne
        simp at hne
      have := List.length_pos.mpr this
      exact_mod_cast this
    constructor
    · exact div_nonneg hb.1 (le_of_lt hlen)
    · rw [div_le_one hlen]
      exact hb.2

theorem globalConfidence_mem (m : ResearchMemory) (p : Plan) (c : EvalConfig) :
    0 ≤ (Evaluator.score m p c).global_confidence
    ∧ (Evaluator.score m p c).global_confidence ≤ 1 := by
  have hg : (Evaluator.score m p c).global_confidence =
      if (weakSubtopicList m p c).isEmpty then subtopicAverage m p c
      else subtopicAverage m p c * (9/10) := rfl
  rw [hg]
  have ha := subtopicAverage_mem m p c
  split
  · exact ha
  · constructor
    · nlinarith [ha.1]
    · nlinarith [ha.2]

/-- Claim C2: each subtopic confidence is exactly the weighted sum
coverage·0.25 + credibility·0.25 + diversity·0.15 +
evidence_strength·0.20 + consistency·0.15 of its component scores; all
components and the confidence lie in [0,1]; the global confidence is
that per-subtopic aggregate (the plan average) with the weak-subtopic
penalty factor 9/10 applied exactly when some subtopic confidence falls
below 3/5; and the global confidence lies in [0,1]. -/
theorem evaluator_global_confidence_formula (m : ResearchMemory) (p : Plan)
    (c : EvalConfig) (st : Subtopic) :
    (evalSubtopic c m st).confidence
      = (evalSubtopic c m st).coverage * (1/4)
        + (evalSubtopic c m st).credibility * (1/4)
        + (evalSubtopic c m st).diversity * (3/20)
        + (evalSubtopic c m st).evidence_strength * (1/5)
        + (evalSubtopic c m st).consistency * (3/20)
    ∧ scoreInRange (evalSubtopic c m st)
    ∧ (Evaluator.score m p c).global_confidence
        = (if (weakSubtopicList m p c).isEmpty then subtopicAverage m p c
           else subtopicAverage m p c * (9/10))
    ∧ ((weakSubtopicList m p c).isEmpty = true ↔
        ∀ pr ∈ subtopicScores m p c, (3/5 : ℚ) ≤ pr.2.confidence)
    ∧ 0 ≤ (Evaluator.score m p c).global_confidence
    ∧ (Evaluator.score m p c).global_confidence ≤ 1 := by
  refine ⟨rfl, evalSubtopic_range c m st, rfl, ?_,
    (globalConfidence_mem m p c).1, (globalConfidence_mem m p c).2⟩
  unfold weakSubtopicList
  rw [List.isEmpty_iff, List.filter_eq_nil_iff]
  constructor
  · intro hw pr hpr
    have := hw pr hpr
    simp only [decide_eq_true_eq] at this
    linarith [not_lt.mp this]
  · intro hw pr hpr
    simp only [decide_eq_true_eq, not_lt]
    exact hw pr hpr

/-- Witness for the global-confidence theorem: on a concrete memory and
plan the global confidence is nonnegative. -/
theorem evaluator_global_confidence_formula_witness :
    0 ≤ (Evaluator.score ⟨[], [], [], [], []⟩ ⟨"obj", []⟩
      ⟨.flag_all, .relaxed⟩).global_confidence :=
  (evaluator_global_confidence_formula ⟨[], [], [], [], []⟩ ⟨"obj", []⟩
    ⟨.flag_all, .relaxed⟩ ⟨"s", 1, .pending, [], [], false⟩).2.2.2.2.1

/-! ## Theorems: stop conditions and token budget -/

/-- Claim C4: with max_iterations = 2 and threshold 0.75, confidences
0.62 then 0.81 stop the run after iteration 2 with
`confidence_threshold_reached`; and whenever the threshold is met the
confidence condition (priority 5) wins over the iteration cap
(priority 6), whatever the iteration count or strictness flags. -/
theorem scenario_a_confidence_threshold_priority :
    runConfidences (3/4) 2 [62/100, 81/100] 0
      = (2, some .confidence_threshold_reached)
    ∧ (∀ (conf thr : ℚ) (iter maxIter : Nat) (ss sf : Bool),
        thr ≤ conf →
        stopReason false false false false conf thr iter maxIter ss sf
          = some .confidence_threshold_reached) := by
  constructor
  · have h1 : ¬ ((3:ℚ)/4 ≤ 62/100) := by norm_num
    have h2 : ((3:ℚ)/4 ≤ 81/100) := by norm_num
    simp [runConfidences, stopReason, h1, h2]
  · intro conf thr iter maxIter ss sf hle
    simp [stopReason, hle]

/-- Witness for the stop-priority theorem: at iteration 2 of 2 with
confidence 0.81 ≥ 0.75, both conditions hold and the threshold wins. -/
theorem scenario_a_confidence_threshold_priority_witness :
    stopReason false false false false (81/100) (3/4) 2 2 true false
      = some .confidence_threshold_reached :=
  scenario_a_confidence_threshold_priority.2 (81/100) (3/4) 2 2 true false
    (by norm_num)

theorem dispatchTasks_monotone (b : TokenBudget) (m : ResearchMemory)
    (ts : List RetrievalTask) :
    ∃ rs ri rt rc,
      (dispatchTasks b m ts).1.sources = m.sources ++ rs
      ∧ (dispatchTasks b m ts).1.insights = m.insights ++ ri
      ∧ (dispatchTasks b m ts).1.statistics = m.statistics ++ rt
      ∧ (dispatchTasks b m ts).1.contradictions = m.contradictions ++ rc := by
  induction ts generalizing b m with
  | nil =>
    refine ⟨[], [], [], [], ?_, ?_, ?_, ?_⟩ <;> simp [dispatchTasks]
  | cons t ts ih =>
    cases hres : b.reserve t.cost with
    | none =>
      refine ⟨[], [], [], [], ?_, ?_, ?_, ?_⟩ <;> simp [dispatchTasks, hres]
    | some b2 =>
      have heq : dispatchTasks b m (t :: ts)
          = dispatchTasks b2 (m.merge t.new_sources t.new_insights
              t.new_statistics t.new_contradictions) ts := by
        simp [dispatchTasks, hres]
      rw [heq]
      obtain ⟨rs, ri, rt, rc, h1, h2, h3, h4⟩ := ih b2
        (m.merge t.new_sources t.new_insights t.new_statistics
          t.new_contradictions)
      obtain ⟨rs0, h0⟩ := mergeSources_append m.sources t.new_sources
      refine ⟨rs0 ++ rs, t.new_insights ++ ri, t.new_statistics ++ rt,
        t.new_contradictions ++ rc, ?_, ?_, ?_, ?_⟩
      · rw [h1]
        show mergeSources m.sources t.new_sources ++ rs = _
        rw [h0, List.append_assoc]
      · rw [h2]
        show (m.insights ++ t.new_insights) ++ ri = _
        rw [List.append_assoc]
      · rw [h3]
        show (m.statistics ++ t.new_statistics) ++ rt = _
        rw [List.append_assoc]
      · rw [h4]
        show (m.contradictions ++ t.new_contradictions) ++ rc = _
        rw [List.append_assoc]

/-- Claim C8: `reserve` is checked before dispatch — a task whose cost
the budget refuses is not dispatched and the run stops right there with
`token_budget_exceeded`, the memory and budget untouched; and the
terminal memory always extends the initial one (every source and
insight merged before a cutoff is still present). -/
theorem token_budget_refused_before_dispatch :
    (∀ (b : TokenBudget) (m : ResearchMemory) (t : RetrievalTask)
        (ts : List RetrievalTask),
        b.reserve t.cost = none →
        dispatchTasks b m (t :: ts) = (m, b, some .token_budget_exceeded))
    ∧ (∀ (b : TokenBudget) (m : ResearchMemory) (ts : List RetrievalTask),
        ∃ rs ri rt rc,
          (dispatchTasks b m ts).1.sources = m.sources ++ rs
          ∧ (dispatchTasks b m ts).1.insights = m.insights ++ ri
          ∧ (dispatchTasks b m ts).1.statistics = m.statistics ++ rt
          ∧ (dispatchTasks b m ts).1.contradictions
              = m.contradictions ++ rc) := by
  constructor
  · intro b m t ts h
    simp [dispatchTasks, h]
  · exact dispatchTasks_monotone

/-- Witness for the budget theorem: with 90 of 100 run tokens used, a
20-token call is refused, the run stamps `token_budget_exceeded`, and
the insight merged before the cutoff is still in memory. -/
theorem token_budget_refused_before_dispatch_witness :
    dispatchTasks ⟨0, 1000, 90, 100⟩
      ⟨[], [⟨"s1", "kept", 1/2, ["u"]⟩], [], [], []⟩
      [⟨20, [], [], [], []⟩]
      = (⟨[], [⟨"s1", "kept", 1/2, ["u"]⟩], [], [], []⟩, ⟨0, 1000, 90, 100⟩,
         some .token_budget_exceeded) :=
  token_budget_refused_before_dispatch.1 ⟨0, 1000, 90, 100⟩
    ⟨[], [⟨"s1", "kept", 1/2, ["u"]⟩], [], [], []⟩ ⟨20, [], [], [], []⟩ []
    (by decide)

/-! ## Theorems: plan governance -/

theorem spawnLoop_bounds (maxSub : Nat) (cands : List SpawnCandidate) :
    ∀ (ps : PlanState) (added : List String),
      1 ≤ ps.plan.subtopics.length → ps.plan.subtopics.length ≤ maxSub →
      1 ≤ (spawnLoop maxSub cands ps added).1.plan.subtopics.length
      ∧ (spawnLoop maxSub cands ps added).1.plan.subtopics.length ≤ maxSub := by
  induction cands with
  | nil =>
    intro ps added h1 h2
    simp only [spawnLoop]
    exact ⟨h1, h2⟩
  | cons cand rest ih =>
    intro ps added h1 h2
    simp only [spawnLoop]
    split
    · next hgate =>
      simp only [spawnGate, Bool.and_eq_true, decide_eq_true_eq] at hgate
      obtain ⟨⟨⟨⟨⟨_, hlen⟩, _⟩, _⟩, _⟩, _⟩ := hgate
      apply ih
      · simp only [List.length_append, List.length_cons, List.length_nil]
        omega
      · simp only [List.length_append, List.length_cons, List.length_nil]
        omega
    · next => exact ih ps added h1 h2

theorem spawnLoop_cooldown_excluded (maxSub : Nat) (name : String) (i : Nat)
    (cands : List SpawnCandidate) :
    ∀ (ps : PlanState) (added : List String),
      (name, i) ∈ ps.removed_this_run → name ∉ added →
      name ∉ (spawnLoop maxSub cands ps added).2 := by
  induction cands with
  | nil =>
    intro ps added hrem hadd
    simp only [spawnLoop]
    exact hadd
  | cons cand rest ih =>
    intro ps added hrem hadd
    simp only [spawnLoop]
    split
    · next hgate =>
      apply ih
      · exact hrem
      · intro hmem
        rcases List.mem_append.mp hmem with h | h
        · exact hadd h
        · rw [List.mem_singleton] at h
          subst h
          simp only [spawnGate, Bool.and_eq_true] at hgate
          obtain ⟨⟨⟨⟨⟨_, _⟩, _⟩, hnrem⟩, _⟩, _⟩ := hgate
          have htrue : removedThisRun ps cand.name = true := by
            unfold removedThisRun
            rw [List.any_eq_true]
            refine ⟨(cand.name, i), hrem, ?_⟩
            simp [nearDuplicateName]
          rw [htrue] at hnrem
          simp at hnrem
    · next => exact ih ps added hrem hadd

theorem pruneLoop_bounds (maxSub : Nat) (names : List String) :
    ∀ (ps : PlanState) (removed : List String),
      1 ≤ ps.plan.subtopics.length → ps.plan.subtopics.length ≤ maxSub →
      1 ≤ (pruneLoop names ps removed).1.plan.subtopics.length
      ∧ (pruneLoop names ps removed).1.plan.subtopics.length ≤ maxSub := by
  induction names with
  | nil =>
    intro ps removed h1 h2
    simp only [pruneLoop]
    exact ⟨h1, h2⟩
  | cons name rest ih =>
    intro ps removed h1 h2
    simp only [pruneLoop]
    split
    · next hgate =>
      simp only [canPrune, Bool.and_eq_true, decide_eq_true_eq] at hgate
      have hle : (removeName ps.plan.subtopics name).length
          ≤ ps.plan.subtopics.length := List.length_filter_le _ _
      apply ih
      · exact hgate.2
      · show (removeName ps.plan.subtopics name).length ≤ maxSub
        omega
    · next => exact ih ps removed h1 h2

/-- Claim C7: after each PlanManager operation the subtopic count stays
within [1, max_subtopics] (spawn's gate enforces the upper bound, the
prune gate the lower, and priority adjustment preserves the count and
the objective); and a name removed this run — in particular one still
inside its cooldown window — is refused by every later spawn, so the
`subtopics_added` delta never contains it. -/
theorem planManager_count_bounds_and_cooldown :
    (∀ (maxSub : Nat) (ps : PlanState) (cands : List SpawnCandidate),
      1 ≤ ps.plan.subtopics.length → ps.plan.subtopics.length ≤ maxSub →
      1 ≤ (spawn_subtopics maxSub ps cands).1.plan.subtopics.length
      ∧ (spawn_subtopics maxSub ps cands).1.plan.subtopics.length ≤ maxSub)
    ∧ (∀ (maxSub : Nat) (ps : PlanState) (names : List String),
      1 ≤ ps.plan.subtopics.length → ps.plan.subtopics.length ≤ maxSub →
      1 ≤ (prune_subtopics ps names).1.plan.subtopics.length
      ∧ (prune_subtopics ps names).1.plan.subtopics.length ≤ maxSub)
    ∧ (∀ (ps : PlanState) (names : List String),
      (apply_priority_adjustments ps names).plan.subtopics.length
        = ps.plan.subtopics.length
      ∧ (apply_priority_adjustments ps names).plan.objective
        = ps.plan.objective)
    ∧ (∀ (maxSub : Nat) (ps : PlanState) (cands : List SpawnCandidate)
        (name : String) (i : Nat),
      (name, i) ∈ ps.removed_this_run →
      ps.iteration < i + cooldownWindow →
      name ∉ (spawn_subtopics maxSub ps cands).2) := by
  refine ⟨?_, ?_, ?_, ?_⟩
  · intro maxSub ps cands h1 h2
    exact spawnLoop_bounds maxSub cands ps [] h1 h2
  · intro maxSub ps names h1 h2
    exact pruneLoop_bounds maxSub names ps [] h1 h2
  · intro ps names
    exact ⟨by simp [apply_priority_adjustments], rfl⟩
  · intro maxSub ps cands name i hrem _
    exact spawnLoop_cooldown_excluded maxSub name i cands ps [] hrem
      (List.not_mem_nil name)

/-- Witness for the plan-governance theorem (Scenario C): "X" was
pruned at iteration 1; at iteration 2 — inside the cooldown window — a
diagnostic flags "X" again, and spawn refuses it, so the iteration's
`subtopics_added` excludes "X"; the plan of one subtopic out of six
allowed also stays in bounds. -/
theorem planManager_count_bounds_and_cooldown_witness :
    "X" ∉ (spawn_subtopics 6
      ⟨⟨"obj", [⟨"core", 1, .active, [], [], true⟩]⟩, [("X", 1)], 2⟩
      [⟨"X", true, [], []⟩]).2
    ∧ 1 ≤ (spawn_subtopics 6
      ⟨⟨"obj", [⟨"core", 1, .active, [], [], true⟩]⟩, [("X", 1)], 2⟩
      [⟨"X", true, [], []⟩]).1.plan.subtopics.length :=
  ⟨planManager_count_bounds_and_cooldown.2.2.2 6
      ⟨⟨"obj", [⟨"core", 1, .active, [], [], true⟩]⟩, [("X", 1)], 2⟩
      [⟨"X", true, [], []⟩] "X" 1 (by decide) (by decide),
   (planManager_count_bounds_and_cooldown.1 6
      ⟨⟨"obj", [⟨"core", 1, .active, [], [], true⟩]⟩, [("X", 1)], 2⟩
      [⟨"X", true, [], []⟩] (by decide) (by decide)).1⟩

end DRRag
